import Mathlib

/-
Verification of the FetchWebService receipt-processing service.

The embedding translates `FetchApp/receipt_service.py` (the tested, stricter
variant) and, where claims reference it, `fetch_service.py` (the older, looser
variant at the repository root).  Strings are modelled as `List Char`; Python
`Decimal` values are modelled as exact rationals `ℚ`; Python `int` as `ℤ`.
-/

attribute [local semireducible] Rat.mul Rat.add Rat.sub Rat.inv

namespace FetchWS

/-- Characters treated as whitespace by the `\s` regex class and by
`str.strip()` on the ASCII inputs this service handles. -/
def isSpaceChar (c : Char) : Bool :=
  c == ' ' || c == '\t' || c == '\n' || c == '\r' || c == '\x0b' || c == '\x0c'

/-- Characters in the `\w` regex class (alphanumeric or underscore). -/
def isWordChar (c : Char) : Bool :=
  c.isAlphanum || c == '_'

/-- Python `s.strip()`: remove leading and trailing whitespace. -/
def pyStrip (s : List Char) : List Char :=
  (((s.dropWhile isSpaceChar).reverse).dropWhile isSpaceChar).reverse

/-- Full match of a one-or-more character-class regex `^[...]+$`:
the string is non-empty and every character lies in the class. -/
def nonEmptyAll (p : Char → Bool) (s : List Char) : Bool :=
  !s.isEmpty && s.all p

/-- The `retailer` field regex from `receipt_service.py`: word characters,
whitespace, hyphen and ampersand, one or more. -/
def retailerPattern (s : List Char) : Bool :=
  nonEmptyAll (fun c => isWordChar c || isSpaceChar c || c == '-' || c == '&') s

/-- The `shortDescription` field regex from `receipt_service.py`: word
characters, whitespace and hyphen, one or more. -/
def descPattern (s : List Char) : Bool :=
  nonEmptyAll (fun c => isWordChar c || isSpaceChar c || c == '-') s

/-- The price and total regex from `receipt_service.py`: one or more
digits, a dot, then exactly two digits. -/
def pricePattern (s : List Char) : Bool :=
  decide (s.takeWhile Char.isDigit ≠ []) &&
  decide ((s.dropWhile Char.isDigit).head? = some '.') &&
  decide ((s.dropWhile Char.isDigit).tail.length = 2) &&
  (s.dropWhile Char.isDigit).tail.all Char.isDigit

/-- Value of a string of decimal digit characters. -/
def digitsToNat (s : List Char) : Nat :=
  s.foldl (fun n c => n * 10 + (c.toNat - 48)) 0

/-- Value of the fractional digit string of a decimal literal. -/
def fracValue (frac : List Char) : ℚ :=
  (digitsToNat frac : ℚ) / (10 : ℚ) ^ frac.length

/-- Models the Python `Decimal` constructor on unsigned decimal literals:
an integer part and an optional dot-separated fractional part, with at
least one digit overall.  Exponent forms and other `Decimal` syntax fall
outside the fragment these receipts use. -/
def parseUnsigned (s : List Char) : Option ℚ :=
  if s.dropWhile Char.isDigit = [] then
    if s.takeWhile Char.isDigit = [] then none
    else some ((digitsToNat (s.takeWhile Char.isDigit) : ℚ))
  else if ((s.dropWhile Char.isDigit).head? = some '.' ∧
      (s.dropWhile Char.isDigit).tail.all Char.isDigit = true ∧
      (s.takeWhile Char.isDigit ≠ [] ∨ (s.dropWhile Char.isDigit).tail ≠ [])) then
    some ((digitsToNat (s.takeWhile Char.isDigit) : ℚ) +
      fracValue ((s.dropWhile Char.isDigit).tail))
  else none

/-- Models the Python `Decimal` constructor including an optional sign. -/
def parseDecimal (s : List Char) : Option ℚ :=
  match s with
  | [] => none
  | c :: rest =>
    if c = '-' then (parseUnsigned rest).map (fun q => -q)
    else if c = '+' then parseUnsigned rest
    else parseUnsigned (c :: rest)

/-- The exact decimal value of a string already known to parse
(`Decimal(s)` in code paths reached only after validation). -/
def decimalValue (s : List Char) : ℚ :=
  (parseDecimal s).getD 0

/-- An item on the receipt (`Item` in both source variants). -/
structure Item where
  shortDescription : List Char
  price : List Char
deriving DecidableEq

/-- A 24-hour clock time, as produced by parsing a `HH:MM` field. -/
structure Time where
  hour : Nat
  minute : Nat
deriving DecidableEq

/-- A calendar date, as produced by parsing a `YYYY-MM-DD` field. -/
structure Date where
  year : Nat
  month : Nat
  day : Nat
deriving DecidableEq

/-- A validated receipt (`Receipt` in `receipt_service.py`, where
`purchaseDate` and `purchaseTime` are parsed date and time objects). -/
structure Receipt where
  retailer : List Char
  purchaseDate : Date
  purchaseTime : Time
  items : List Item
  total : List Char
deriving DecidableEq

/-- Truncation of a rational toward zero, as in `Decimal` integer division. -/
def qtrunc (q : ℚ) : ℤ :=
  Int.tdiv q.num (q.den : ℤ)

/-- Ceiling of a rational, as computed by `math.ceil` on a `Decimal`. -/
def qceil (q : ℚ) : ℤ :=
  -(Int.fdiv (-(q.num)) ((q.den : ℤ)))

/-- Python `Decimal` remainder `x % y`: the remainder from division
truncated toward zero. -/
def decMod (x y : ℚ) : ℚ :=
  x - y * ((qtrunc (x / y) : ℤ) : ℚ)

/-- `AFTERNOON_START = time(14, 0)` from the source. -/
def AFTERNOON_START : Time := ⟨14, 0⟩

/-- `AFTERNOON_END = time(16, 0)` from the source. -/
def AFTERNOON_END : Time := ⟨16, 0⟩

/-- `PRICE_MULTIPLIER = Decimal("0.2")` from the source. -/
def PRICE_MULTIPLIER : ℚ := 2 / 10

/-- Python `time` ordering, `a <= b` (seconds and microseconds are zero). -/
def timeLe (a b : Time) : Prop :=
  a.hour < b.hour ∨ (a.hour = b.hour ∧ a.minute ≤ b.minute)

instance (a b : Time) : Decidable (timeLe a b) :=
  inferInstanceAs (Decidable (_ ∨ _))

/-- Python `time` ordering, `a < b` (seconds and microseconds are zero). -/
def timeLt (a b : Time) : Prop :=
  a.hour < b.hour ∨ (a.hour = b.hour ∧ a.minute < b.minute)

instance (a b : Time) : Decidable (timeLt a b) :=
  inferInstanceAs (Decidable (_ ∨ _))

/-- Rule 1: one point per alphanumeric character of the retailer name. -/
def rule1 (retailer : List Char) : ℤ :=
  ((retailer.filter Char.isAlphanum).length : ℤ)

/-- Rule 2: 50 points if the total is a round dollar amount (`total % 1 == 0`). -/
def rule2 (total : ℚ) : ℤ :=
  if decMod total 1 = 0 then 50 else 0

/-- Rule 3: 25 points if the total is a multiple of `Decimal("0.25")`. -/
def rule3 (total : ℚ) : ℤ :=
  if decMod total (1 / 4) = 0 then 25 else 0

/-- Rule 4: 5 points for every two items (`(len(items) // 2) * 5`). -/
def rule4 (items : List Item) : ℤ :=
  ((items.length / 2) * 5 : ℕ)

/-- Rule 5, per item: if the trimmed description length is a multiple of 3,
`math.ceil(price * PRICE_MULTIPLIER)` points, else none. -/
def rule5Item (it : Item) : ℤ :=
  if (pyStrip it.shortDescription).length % 3 = 0 then
    qceil (decimalValue it.price * PRICE_MULTIPLIER)
  else 0

/-- Rule 5 summed over the item list. -/
def rule5 (items : List Item) : ℤ :=
  (items.map rule5Item).sum

/-- Rule 6: 6 points if the day of the purchase date is odd. -/
def rule6 (d : Date) : ℤ :=
  if d.day % 2 ≠ 0 then 6 else 0

/-- Rule 7: 10 points if `AFTERNOON_START <= purchaseTime < AFTERNOON_END`. -/
def rule7 (t : Time) : ℤ :=
  if timeLe AFTERNOON_START t ∧ timeLt t AFTERNOON_END then 10 else 0

/-- `calculate_points` from `receipt_service.py`: the sum of the seven
additive rules applied to the receipt fields. -/
def calculate_points (receipt : Receipt) : ℤ :=
  rule1 receipt.retailer +
  rule2 (decimalValue receipt.total) +
  rule3 (decimalValue receipt.total) +
  rule4 receipt.items +
  rule5 receipt.items +
  rule6 receipt.purchaseDate +
  rule7 receipt.purchaseTime

/-- Gregorian leap-year test, as in Python's `datetime` module. -/
def isLeapYear (y : Nat) : Bool :=
  (y % 4 == 0 && y % 100 != 0) || y % 400 == 0

/-- Number of days in a month of the Gregorian calendar. -/
def daysInMonth (y m : Nat) : Nat :=
  if m = 2 then (if isLeapYear y then 29 else 28)
  else if m = 4 ∨ m = 6 ∨ m = 9 ∨ m = 11 then 30
  else 31

/-- A real calendar date, the postcondition of parsing a `date` field. -/
def validDate (d : Date) : Bool :=
  decide (1 ≤ d.month) && decide (d.month ≤ 12) &&
  decide (1 ≤ d.day) && decide (d.day ≤ daysInMonth d.year d.month)

/-- A real clock time, the postcondition of parsing a `time` field. -/
def validTime (t : Time) : Bool :=
  decide (t.hour ≤ 23) && decide (t.minute ≤ 59)

/-- Exact sum of the decimal values of the item prices,
`sum(Decimal(item.price) for item in items)`. -/
def itemsPriceSum (items : List Item) : ℚ :=
  (items.map (fun it => decimalValue it.price)).sum

/-- The whole-receipt validator of `FetchApp/receipt_service.py`: the field
patterns and bounds enforced by the pydantic model, the non-empty item list,
and the `validate_total_matches_items` model validator comparing the exact
decimal sum of item prices with the total. -/
def validateReceipt (r : Receipt) : Bool :=
  retailerPattern r.retailer &&
  validDate r.purchaseDate &&
  validTime r.purchaseTime &&
  decide (1 ≤ r.items.length) &&
  r.items.all (fun it => descPattern it.shortDescription && pricePattern it.price) &&
  pricePattern r.total &&
  decide (itemsPriceSum r.items = decimalValue r.total)

/-- A raw receipt as in `fetch_service.py`, where every field arrives as an
unparsed string. -/
structure RawReceipt where
  retailer : List Char
  purchaseDate : List Char
  purchaseTime : List Char
  items : List Item
  total : List Char
deriving DecidableEq

/-- Split a character list on a separator character. -/
def splitOnChar (sep : Char) : List Char → List (List Char)
  | [] => [[]]
  | c :: rest =>
      let r := splitOnChar sep rest
      if c = sep then [] :: r
      else (c :: r.headD []) :: r.tail

/-- Models `datetime.strptime(s, "%Y-%m-%d")` from `fetch_service.py`:
dash-separated digit groups (up to four year digits, one or two month and
day digits) forming a real calendar date. -/
def parseDateStr (s : List Char) : Option Date :=
  match splitOnChar '-' s with
  | [ys, ms, ds] =>
      if (ys ≠ [] ∧ ys.length ≤ 4 ∧ ys.all Char.isDigit = true ∧
          ms ≠ [] ∧ ms.length ≤ 2 ∧ ms.all Char.isDigit = true ∧
          ds ≠ [] ∧ ds.length ≤ 2 ∧ ds.all Char.isDigit = true) then
        if (1 ≤ digitsToNat ys ∧
            validDate ⟨digitsToNat ys, digitsToNat ms, digitsToNat ds⟩ = true) then
          some ⟨digitsToNat ys, digitsToNat ms, digitsToNat ds⟩
        else none
      else none
  | _ => none

/-- Models `datetime.strptime(s, "%H:%M").time()` from `fetch_service.py`:
colon-separated digit groups of one or two digits forming a real time. -/
def parseTimeStr (s : List Char) : Option Time :=
  match splitOnChar ':' s with
  | [hs, ms] =>
      if (hs ≠ [] ∧ hs.length ≤ 2 ∧ hs.all Char.isDigit = true ∧
          ms ≠ [] ∧ ms.length ≤ 2 ∧ ms.all Char.isDigit = true) then
        if validTime ⟨digitsToNat hs, digitsToNat ms⟩ = true then
          some ⟨digitsToNat hs, digitsToNat ms⟩
        else none
      else none
  | _ => none

/-- `Item.validate_price` from `fetch_service.py`: the price string must
parse as a `Decimal` and must not be negative; no pattern is enforced. -/
def validate_price (price_value : List Char) : Bool :=
  match parseDecimal price_value with
  | none => false
  | some price => decide (0 ≤ price)

/-- `Receipt.validate_total` from `fetch_service.py`: the total string must
parse as a `Decimal` and, when the item list validated successfully (always
the case for an accepted receipt), equal the exact sum of item prices. -/
def validate_total (total_value : List Char) (items : List Item) : Bool :=
  match parseDecimal total_value with
  | none => false
  | some total => decide (total = itemsPriceSum items)

/-- The whole-receipt validator of `fetch_service.py`: date, time, item and
total field validators, plus the non-empty item list; `retailer` and
`shortDescription` carry no constraints in this variant. -/
def fs_validateReceipt (r : RawReceipt) : Bool :=
  (parseDateStr r.purchaseDate).isSome &&
  (parseTimeStr r.purchaseTime).isSome &&
  decide (1 ≤ r.items.length) &&
  r.items.all (fun it => validate_price it.price) &&
  validate_total r.total r.items

/-- The two in-memory databases, `receipts_db` and `points_db`, modelled as
association lists keyed by the identifier string. -/
structure Store where
  receipts_db : List (List Char × Receipt)
  points_db : List (List Char × ℤ)

/-- The store at service start: both dictionaries empty. -/
def emptyStore : Store := ⟨[], []⟩

/-- Dictionary lookup `d[k]` (`none` models a missing key). -/
def dictLookup {α : Type} (k : List Char) : List (List Char × α) → Option α
  | [] => none
  | (k2, v) :: d => if k2 = k then some v else dictLookup k d

/-- Dictionary assignment `d[k] = v`, up to lookup behaviour. -/
def dictInsert {α : Type} (k : List Char) (v : α)
    (d : List (List Char × α)) : List (List Char × α) :=
  (k, v) :: d.filter (fun p => decide (p.1 ≠ k))

/-- The keys of a dictionary. -/
def keys {α : Type} (d : List (List Char × α)) : List (List Char) :=
  d.map Prod.fst

/-- `process_receipt` from `receipt_service.py`: store the receipt and its
computed points under a fresh identifier (the identifier drawn from the
uuid source is passed in explicitly) and return that identifier. -/
def process_receipt (s : Store) (receipt_id : List Char) (receipt : Receipt) :
    Store × List Char :=
  (⟨dictInsert receipt_id receipt s.receipts_db,
    dictInsert receipt_id (calculate_points receipt) s.points_db⟩,
   receipt_id)

/-- The double-quote character stripped from incoming identifiers. -/
def QUOTE : Char := '\x22'

/-- Python `id.strip(QUOTE)`: remove leading and trailing double quotes. -/
def strip_quotes (s : List Char) : List Char :=
  (((s.dropWhile (fun c => decide (c = QUOTE))).reverse).dropWhile
    (fun c => decide (c = QUOTE))).reverse

/-- The fixed 404 message of `receipt_service.py`. -/
def NOT_FOUND_MSG : List Char :=
  ("No receipt found for that id").toList

/-- `get_points` from `receipt_service.py`: strip surrounding quotes from
the identifier, then either return the stored points or fail with the
fixed not-found message.  The store is not modified. -/
def get_points (s : Store) (id : List Char) : Except (List Char) ℤ :=
  match dictLookup (strip_quotes id) s.points_db with
  | none => Except.error NOT_FOUND_MSG
  | some points => Except.ok points

/-- A request handled by the service: either a process call (with the
identifier drawn from the uuid source) or a points lookup. -/
inductive Op where
  | process : List Char → Receipt → Op
  | getPoints : List Char → Op

/-- Effect of one request on the store (`get_points` reads only). -/
def runOp (s : Store) : Op → Store
  | Op.process id r => (process_receipt s id r).1
  | Op.getPoints _ => s

/-- Effect of a request sequence on the store. -/
def runOps (s : Store) : List Op → Store
  | [] => s
  | op :: ops => runOps (runOp s op) ops

/-- The identifiers returned by the process calls of a request sequence. -/
def processedIds : List Op → List (List Char)
  | [] => []
  | Op.process id _ :: ops => id :: processedIds ops
  | Op.getPoints _ :: ops => processedIds ops

/-- The example receipt pinned by the spec and the test suite
(`mock_valid_receipt` in `test_receipt_service.py`). -/
def mountainDewItem : Item :=
  ⟨("Mountain Dew 12PK").toList, ("6.49").toList⟩

def emilsItem : Item :=
  ⟨("Emils Cheese Pizza").toList, ("12.25").toList⟩

def knorrItem : Item :=
  ⟨("Knorr Creamy Chicken").toList, ("1.26").toList⟩

def doritosItem : Item :=
  ⟨("Doritos Nacho Cheese").toList, ("3.35").toList⟩

def klarbrunnItem : Item :=
  ⟨("   Klarbrunn 12-PK 12 FL OZ  ").toList, ("12.00").toList⟩

def exampleReceipt : Receipt :=
  ⟨("Target").toList, ⟨2022, 1, 1⟩, ⟨13, 1⟩,
   [mountainDewItem, emilsItem, knorrItem, doritosItem, klarbrunnItem],
   ("35.35").toList⟩

/-- A receipt accepted despite a whitespace-only item description. -/
def wsItem : Item := ⟨[' '], ("1.00").toList⟩

def wsReceipt : Receipt :=
  ⟨("A").toList, ⟨2022, 1, 1⟩, ⟨13, 1⟩, [wsItem], ("1.00").toList⟩

/-- An item priced with one fractional digit, outside the price regex. -/
def fsItem65 : Item := ⟨("Gatorade").toList, ("6.5").toList⟩

/-- A raw receipt the `fetch_service.py` validator accepts although its
price and total strings do not match the two-decimal regex. -/
def fsReceipt65 : RawReceipt :=
  ⟨("Corner Market").toList, ("2022-01-01").toList, ("13:01").toList,
   [fsItem65], ("6.5").toList⟩

/-- The price string of the spec's Rule 5 rounding example. -/
def price649 : List Char := ("6.49").toList

/-- An item whose trimmed description length is 18 and whose price is the
Rule 5 example price. -/
def emilsItem649 : Item := ⟨("Emils Cheese Pizza").toList, price649⟩

/- Helper lemmas about the list and dictionary operations. -/

theorem dropWhile_eq_self_of_not (p : Char → Bool) (l : List Char)
    (h : ∀ c ∈ l, p c = false) : l.dropWhile p = l := by
  cases l with
  | nil => rfl
  | cons a t =>
      rw [List.dropWhile_cons, h a (List.mem_cons_self a t)]
      simp

theorem strip_quotes_of_no_quote (id : List Char) (h : ∀ c ∈ id, c ≠ QUOTE) :
    strip_quotes id = id := by
  have h1 : ∀ c ∈ id, (fun c => decide (c = QUOTE)) c = false := by
    intro c hc
    simp [h c hc]
  have h2 : ∀ c ∈ id.reverse, (fun c => decide (c = QUOTE)) c = false := by
    intro c hc
    exact h1 c (List.mem_reverse.mp hc)
  unfold strip_quotes
  rw [dropWhile_eq_self_of_not _ _ h1, dropWhile_eq_self_of_not _ _ h2,
    List.reverse_reverse]

theorem dictLookup_insert_self {α : Type} (k : List Char) (v : α)
    (d : List (List Char × α)) : dictLookup k (dictInsert k v d) = some v := by
  simp [dictLookup, dictInsert]

theorem keys_filter {α : Type} (k : List Char) (d : List (List Char × α)) :
    keys (d.filter (fun p => decide (p.1 ≠ k))) =
      (keys d).filter (fun x => decide (x ≠ k)) := by
  induction d with
  | nil => rfl
  | cons p t ih =>
      by_cases hp : p.1 = k <;>
        simp [keys, List.filter_cons, hp] at ih ⊢ <;> exact ih

theorem keys_dictInsert {α : Type} (k : List Char) (v : α)
    (d : List (List Char × α)) :
    keys (dictInsert k v d) = k :: (keys d).filter (fun x => decide (x ≠ k)) := by
  show k :: keys (d.filter fun p => decide (p.1 ≠ k)) = _
  rw [keys_filter]

theorem dictLookup_eq_none_of_not_mem {α : Type} (k : List Char)
    (d : List (List Char × α)) (h : k ∉ keys d) : dictLookup k d = none := by
  induction d with
  | nil => rfl
  | cons p t ih =>
      simp only [keys, List.map_cons, List.mem_cons, not_or] at h
      obtain ⟨k2, v⟩ := p
      simp only [dictLookup]
      rw [if_neg (fun he => h.1 he.symm)]
      exact ih h.2

theorem runOps_points_keys_subset (ops : List Op) :
    ∀ s : Store,
      keys (runOps s ops).points_db ⊆ keys s.points_db ++ processedIds ops := by
  induction ops with
  | nil =>
      intro s
      simp [runOps, processedIds]
  | cons op ops ih =>
      intro s
      cases op with
      | process id r =>
          intro x hx
          have hsub := ih (runOp s (Op.process id r)) hx
          simp only [runOp, process_receipt, keys_dictInsert, List.mem_append,
            List.mem_cons, List.mem_filter, processedIds] at hsub ⊢
          rcases hsub with (rfl | ⟨hmem, _⟩) | hpid
          · exact Or.inr (Or.inl rfl)
          · exact Or.inl hmem
          · exact Or.inr (Or.inr hpid)
      | getPoints id =>
          intro x hx
          have hsub := ih s hx
          simpa [processedIds] using hsub

theorem runOps_dom_eq (ops : List Op) :
    ∀ s : Store, keys s.receipts_db = keys s.points_db →
      keys (runOps s ops).receipts_db = keys (runOps s ops).points_db := by
  induction ops with
  | nil => intro s h; exact h
  | cons op ops ih =>
      intro s h
      cases op with
      | process id r =>
          apply ih
          simp [runOp, process_receipt, keys_dictInsert, h]
      | getPoints id => exact ih s h

theorem parseDecimal_of_pricePattern (s : List Char) (h : pricePattern s = true) :
    ∃ q : ℚ, parseDecimal s = some q ∧ 0 ≤ q := by
  simp only [pricePattern, Bool.and_eq_true, decide_eq_true_eq] at h
  obtain ⟨⟨⟨h1, h2⟩, h3⟩, h4⟩ := h
  cases s with
  | nil => exact absurd rfl h1
  | cons c t =>
      have hc : c.isDigit = true := by
        by_contra hcf
        rw [Bool.not_eq_true] at hcf
        apply h1
        rw [List.takeWhile_cons, hcf]
        simp
      have hcm : c ≠ '-' := by
        intro he
        rw [he] at hc
        exact absurd hc (by decide)
      have hcp : c ≠ '+' := by
        intro he
        rw [he] at hc
        exact absurd hc (by decide)
      have hrest : (c :: t).dropWhile Char.isDigit ≠ [] := by
        intro he
        rw [he] at h2
        exact Option.noConfusion h2
      refine ⟨(digitsToNat ((c :: t).takeWhile Char.isDigit) : ℚ) +
        fracValue (((c :: t).dropWhile Char.isDigit).tail), ?_, ?_⟩
      · simp only [parseDecimal]
        rw [if_neg hcm, if_neg hcp]
        unfold parseUnsigned
        rw [if_neg hrest, if_pos ⟨h2, h4, Or.inl h1⟩]
      · have hf : 0 ≤ fracValue (((c :: t).dropWhile Char.isDigit).tail) := by
          unfold fracValue
          positivity
        have hi : (0 : ℚ) ≤ (digitsToNat ((c :: t).takeWhile Char.isDigit) : ℚ) :=
          Nat.cast_nonneg _
        linarith

/- The ten claims. -/

/-- Claim C1: the fixed example receipt (retailer Target, date 2022-01-01,
time 13:01, the five listed items, total 35.35) scores exactly 28 points. -/
theorem example_receipt_scores_28 : calculate_points exampleReceipt = 28 := by
  decide

/-- Claim C2: a receipt accepted by the validator (either source variant)
has its exact decimal item-price sum equal to its total; equivalently, any
mismatch, however small, is rejected at validation time. -/
theorem accepted_total_matches_item_sum :
    (∀ r : Receipt, validateReceipt r = true →
      itemsPriceSum r.items = decimalValue r.total) ∧
    ∀ r : RawReceipt, fs_validateReceipt r = true →
      itemsPriceSum r.items = decimalValue r.total := by
  constructor
  · intro r h
    simp only [validateReceipt, Bool.and_eq_true, decide_eq_true_eq] at h
    exact h.2
  · intro r h
    simp only [fs_validateReceipt, Bool.and_eq_true] at h
    have ht := h.2
    unfold validate_total at ht
    cases hp : parseDecimal r.total with
    | none => rw [hp] at ht; exact absurd ht (by simp)
    | some t =>
        rw [hp] at ht
        simp only [decide_eq_true_eq] at ht
        unfold decimalValue
        rw [hp]
        exact ht.symm

theorem accepted_total_matches_item_sum_witness :
    validateReceipt exampleReceipt = true ∧
    itemsPriceSum exampleReceipt.items = decimalValue exampleReceipt.total :=
  ⟨by decide, accepted_total_matches_item_sum.1 exampleReceipt (by decide)⟩

/-- Claim C3: round-trip of the two operations: after a successful process
call returning an identifier, a points lookup on that identifier returns
exactly the score the scorer computed at process time. -/
theorem process_then_get_points_roundtrip (s : Store) (id : List Char)
    (r : Receipt) (h : ∀ c ∈ id, c ≠ QUOTE) :
    get_points (process_receipt s id r).1 id = Except.ok (calculate_points r) := by
  have hdb : (process_receipt s id r).1.points_db
      = dictInsert id (calculate_points r) s.points_db := rfl
  unfold get_points
  rw [hdb, strip_quotes_of_no_quote id h, dictLookup_insert_self]

theorem process_then_get_points_roundtrip_witness :
    get_points (process_receipt emptyStore (['a']) exampleReceipt).1 (['a'])
      = Except.ok (calculate_points exampleReceipt) :=
  process_then_get_points_roundtrip emptyStore (['a']) exampleReceipt (by decide)

/-- Claim C4 counterexample: the description of the pinned item
Mountain Dew 12PK has trimmed length 17, not 18, so Rule 5 contributes 0
for it, not the 2 points the claim asserts. -/
theorem mountain_dew_trimmed_length_17 :
    (pyStrip mountainDewItem.shortDescription).length = 17 ∧
    rule5Item mountainDewItem = 0 ∧ rule5Item mountainDewItem ≠ 2 := by
  decide

/-- Claim C4 (amended): for any item priced 6.49 whose trimmed description
length is a multiple of 3, Rule 5 contributes exactly
`ceil(6.49 * 0.2) = ceil(1.298) = 2` points in exact decimal arithmetic. -/
theorem rule5_two_points_for_price_649 (it : Item) (hp : it.price = price649)
    (h3 : (pyStrip it.shortDescription).length % 3 = 0) :
    rule5Item it = 2 := by
  unfold rule5Item
  rw [if_pos h3, hp]
  decide

theorem rule5_two_points_for_price_649_witness : rule5Item emilsItem649 = 2 :=
  rule5_two_points_for_price_649 emilsItem649 rfl (by decide)

/-- Claim C5: a total of 35.00 receives both the Rule 2 (+50) and Rule 3
(+25) contributions; a total of 35.35 receives neither. -/
theorem r2_r3_boundary_totals :
    rule2 (decimalValue (("35.00").toList)) = 50 ∧
    rule3 (decimalValue (("35.00").toList)) = 25 ∧
    rule2 (decimalValue (("35.35").toList)) = 0 ∧
    rule3 (decimalValue (("35.35").toList)) = 0 := by
  decide

/-- Claim C6: Rule 7 awards its 10 points exactly on the half-open interval
from 14:00 inclusive to 16:00 exclusive: 14:00 contributes 10, while 16:00
and 13:59 contribute 0. -/
theorem r7_half_open_boundary :
    rule7 ⟨14, 0⟩ = 10 ∧ rule7 ⟨16, 0⟩ = 0 ∧ rule7 ⟨13, 59⟩ = 0 ∧
    ∀ t : Time, validTime t = true →
      rule7 t = (if 14 * 60 ≤ 60 * t.hour + t.minute ∧
          60 * t.hour + t.minute < 16 * 60 then 10 else 0) := by
  refine ⟨by decide, by decide, by decide, ?_⟩
  intro t ht
  simp only [validTime, Bool.and_eq_true, decide_eq_true_eq] at ht
  unfold rule7
  refine if_congr ?_ rfl rfl
  unfold timeLe timeLt AFTERNOON_START AFTERNOON_END
  dsimp only
  omega

theorem r7_half_open_boundary_witness :
    validTime ⟨15, 30⟩ = true ∧ rule7 (⟨15, 30⟩ : Time) = 10 := by
  refine ⟨by decide, ?_⟩
  rw [r7_half_open_boundary.2.2.2 ⟨15, 30⟩ (by decide)]
  decide

/-- Claim C7: atomicity of process: every process call stores both the
receipt and its points under the returned identifier, and along any request
sequence from the empty store the two databases always hold exactly the
same identifiers, so no partial state is reachable. -/
theorem process_atomicity :
    (∀ (s : Store) (id : List Char) (r : Receipt),
        dictLookup id ((process_receipt s id r).1).receipts_db = some r ∧
        dictLookup id ((process_receipt s id r).1).points_db
          = some (calculate_points r) ∧
        (process_receipt s id r).2 = id) ∧
    ∀ ops : List Op,
      keys (runOps emptyStore ops).receipts_db
        = keys (runOps emptyStore ops).points_db := by
  constructor
  · intro s id r
    exact ⟨dictLookup_insert_self id r s.receipts_db,
      dictLookup_insert_self id (calculate_points r) s.points_db, rfl⟩
  · intro ops
    exact runOps_dom_eq ops emptyStore rfl

/-- Claim C8 counterexample: the validator accepts a receipt whose item
description is a single space, and that description trims to length 0, so
accepted descriptions are not always non-empty after trimming. -/
theorem whitespace_description_accepted :
    validateReceipt wsReceipt = true ∧ wsItem ∈ wsReceipt.items ∧
    (pyStrip wsItem.shortDescription).length = 0 := by
  decide

/-- Claim C8 (amended): every item description of a validator-accepted
receipt is a non-empty string, but it may consist entirely of whitespace,
so its trimmed length can be 0 and Rule 5's trimmed-length-0 case is
reachable on valid input. -/
theorem accepted_descriptions_nonempty (r : Receipt)
    (h : validateReceipt r = true) :
    ∀ it ∈ r.items, it.shortDescription ≠ [] := by
  intro it hit hnil
  simp only [validateReceipt, Bool.and_eq_true] at h
  obtain ⟨⟨⟨⟨⟨⟨h1, h2⟩, h3⟩, h4⟩, h5⟩, h6⟩, h7⟩ := h
  rw [List.all_eq_true] at h5
  have hd := h5 it hit
  simp only [Bool.and_eq_true] at hd
  have hdp := hd.1
  rw [hnil] at hdp
  simp [descPattern, nonEmptyAll] at hdp

theorem accepted_descriptions_nonempty_witness :
    mountainDewItem.shortDescription ≠ [] :=
  accepted_descriptions_nonempty exampleReceipt (by decide)
    mountainDewItem (by decide)

/-- Claim C9 counterexample: the `fetch_service.py` validator accepts a
receipt whose item price and total are the string 6.5, which does not match
the two-fractional-digit pattern, so the pattern postcondition fails for
that variant. -/
theorem fs_accepts_price_without_pattern :
    fs_validateReceipt fsReceipt65 = true ∧
    fsItem65 ∈ fsReceipt65.items ∧
    pricePattern fsItem65.price = false ∧
    pricePattern fsReceipt65.total = false := by
  decide

/-- Claim C9 (amended): for the `FetchApp/receipt_service.py` validator the
postcondition holds: every accepted receipt has its total and every item
price matching the digits-dot-two-digits pattern and parsing to a
non-negative exact decimal; the `fetch_service.py` variant only requires a
parseable non-negative decimal. -/
theorem accepted_prices_match_pattern (r : Receipt)
    (h : validateReceipt r = true) :
    (pricePattern r.total = true ∧
      ∃ q : ℚ, parseDecimal r.total = some q ∧ 0 ≤ q) ∧
    ∀ it ∈ r.items, pricePattern it.price = true ∧
      ∃ q : ℚ, parseDecimal it.price = some q ∧ 0 ≤ q := by
  simp only [validateReceipt, Bool.and_eq_true] at h
  obtain ⟨⟨⟨⟨⟨⟨h1, h2⟩, h3⟩, h4⟩, h5⟩, h6⟩, h7⟩ := h
  refine ⟨⟨h6, parseDecimal_of_pricePattern _ h6⟩, ?_⟩
  intro it hit
  rw [List.all_eq_true] at h5
  have hp := (Bool.and_eq_true _ _).mp (h5 it hit)
  exact ⟨hp.2, parseDecimal_of_pricePattern _ hp.2⟩

theorem accepted_prices_match_pattern_witness :
    pricePattern exampleReceipt.total = true ∧
    ∃ q : ℚ, parseDecimal exampleReceipt.total = some q ∧ 0 ≤ q :=
  (accepted_prices_match_pattern exampleReceipt (by decide)).1

/-- Claim C10: a points lookup on an identifier that (after quote
stripping) was never returned by any process call of the request sequence
fails with the fixed not-found message; the lookup itself never modifies
the store. -/
theorem get_points_unknown_id_not_found (ops : List Op) (id : List Char)
    (h : strip_quotes id ∉ processedIds ops) :
    get_points (runOps emptyStore ops) id = Except.error NOT_FOUND_MSG := by
  have hnk : strip_quotes id ∉ keys (runOps emptyStore ops).points_db := by
    intro hmem
    exact h (by simpa [emptyStore, keys] using
      runOps_points_keys_subset ops emptyStore hmem)
  unfold get_points
  rw [dictLookup_eq_none_of_not_mem _ _ hnk]

theorem get_points_unknown_id_not_found_witness :
    get_points (runOps emptyStore []) (['x']) = Except.error NOT_FOUND_MSG :=
  get_points_unknown_id_not_found [] (['x']) (by decide)

end FetchWS
